import Mathlib

/-!
Verification of the endpoint abstraction in `src/rpc/types.rs`.

Modelling conventions:
* Rust `f64` values are modelled as rationals (`ℚ`); IEEE-754 rounding is not
  modelled, arithmetic is exact.
* Rust strings are modelled as lists of characters (`Str := List Char`), one
  character per byte for the ASCII texts the decoder handles.
* A Rust panic (`.unwrap()` on an `Err`/`None`, `Vec::remove` out of bounds)
  is modelled by returning `none` in an `Option`-typed result; `some v` means
  the Rust code returns the value `v` normally.
* `u64` is modelled as `Nat` with explicit `< 2 ^ 64` overflow checks where
  the Rust integer parser checks them.
* The HTTP transport (`reqwest`) is external to the repository; a dispatch is
  parameterised by a `transport : Json → SendOutcome` describing what
  `client.post(url).json(&tx).send()` and the subsequent body read produce
  for a given request value.
* `serde_json::from_str` is external to the repository; the JSON-parse
  outcome is passed to `extract_number` as an `Option Json` (`none` = the
  text is not valid JSON, so `from_str` returns `Err`).
-/

/-- Strings modelled as character lists. -/
abbrev Str := List Char

/-- Modelled from the spec: the error taxonomy `crate::rpc::error::RpcError`,
whose defining module is not under `src/`. The spec (§7) names the kinds
Transport, OutOfBounds, Malformed, InvalidResponse and ParseError. The source
file itself constructs only `InvalidResponse` (with a message) and
`OutOfBounds`; hex-parse failures are carried by the separate
`ParseIntError` type of `u64::from_str_radix`. -/
inductive RpcError where
  | Transport
  | OutOfBounds
  | Malformed
  | InvalidResponse (msg : String)
  | ParseError
  deriving DecidableEq, Repr

/-- The error type of Rust `u64::from_str_radix` (`std::num::ParseIntError`),
restricted to the kinds reachable for an unsigned 64-bit parse. -/
inductive ParseIntError where
  | Empty
  | InvalidDigit
  | PosOverflow
  deriving DecidableEq, Repr

/-- A JSON value (`serde_json::Value`). -/
inductive Json where
  | null
  | bool (b : Bool)
  | num (n : ℚ)
  | str (s : Str)
  | arr (elems : List Json)
  | obj (fields : List (String × Json))

/-- `serde_json::Value` indexing `json[key]`: on an object, the value of the
key if present, otherwise `Null`; on every non-object value, `Null`. -/
def Json.index (j : Json) (key : String) : Json :=
  match j with
  | .obj fields =>
    match fields.lookup key with
    | some v => v
    | none => .null
  | _ => .null

/-- `Value::as_str`: the contained string for a JSON string, else `None`. -/
def Json.as_str : Json → Option Str
  | .str s => some s
  | _ => none

/-- `char::to_digit(16)`: the numeric value of a hexadecimal digit. -/
def hexDigitVal (c : Char) : Option Nat :=
  if '0' ≤ c ∧ c ≤ '9' then some (c.toNat - '0'.toNat)
  else if 'a' ≤ c ∧ c ≤ 'f' then some (c.toNat - 'a'.toNat + 10)
  else if 'A' ≤ c ∧ c ≤ 'F' then some (c.toNat - 'A'.toNat + 10)
  else none

/-- The digit loop of Rust `u64::from_str_radix` at radix 16: digits are
consumed left to right; an invalid digit yields `InvalidDigit`; the
accumulator update `acc * 16 + d` is performed with `checked_mul` then
`checked_add`, each overflow yielding `PosOverflow`. -/
def parseDigitsU64 : Nat → Str → Except ParseIntError Nat
  | acc, [] => .ok acc
  | acc, c :: cs =>
    match hexDigitVal c with
    | none => .error .InvalidDigit
    | some d =>
      if acc * 16 < 2 ^ 64 then
        if acc * 16 + d < 2 ^ 64 then parseDigitsU64 (acc * 16 + d) cs
        else .error .PosOverflow
      else .error .PosOverflow

/-- Rust `u64::from_str_radix(s, 16)`: empty input is `Empty`; a leading `+`
is allowed before at least one digit; a lone `+` is `InvalidDigit`; for an
unsigned type `-` is not a sign and fails as an invalid digit inside the
digit loop. -/
def from_str_radix_u64 (s : Str) : Except ParseIntError Nat :=
  match s with
  | [] => .error .Empty
  | c :: rest =>
    if c = '+' then
      match rest with
      | [] => .error .InvalidDigit
      | _ :: _ => parseDigitsU64 0 rest
    else parseDigitsU64 0 (c :: rest)

-- TODO: theres a bizzare edge case where the last " isnt removed in the
-- previou step so check for that here and remove it if necessary
/-- `hex_to_decimal` from `src/rpc/types.rs`: remove every literal quote
character (`.replace("\u{22}", "")`), strip a leading `0x` prefix if it
exists, and parse the remainder as an unsigned 64-bit base-16 integer. -/
def hex_to_decimal (hex_string : Str) : Except ParseIntError Nat :=
  let hex_string := hex_string.filter (fun c => c ≠ '\"')
  let hex_string := if hex_string.take 2 = ['0', 'x'] then hex_string.drop 2 else hex_string
  from_str_radix_u64 hex_string

/-- `format_hex` from `src/rpc/types.rs`: expects a response like
`\x7b"jsonrpc":"2.0","id":1,"result":"0x113f756"\x7d`; if the text is shorter
than 36 characters fail with `OutOfBounds`, otherwise return the slice
`&hex[34..hex.len() - 2]`. -/
def format_hex (hex : Str) : Except RpcError Str :=
  if hex.length < 36 then .error .OutOfBounds
  else .ok ((hex.drop 34).take (hex.length - 2 - 34))

/-- `Vec::remove(0)`: removes and returns nothing but the tail here; panics
(modelled as `none`) when the vector is empty, since index 0 is then out of
bounds. -/
def vecRemoveFront : List ℚ → Option (List ℚ)
  | [] => none
  | _ :: rest => some rest

/-- Rust `f64 as usize`: truncation toward zero, saturating at 0 for
negative inputs (`ℚ` has no NaN/infinities to model). For `q ≥ 0` this is
the floor. -/
def f64toUsize (q : ℚ) : Nat := (⌊q⌋).toNat

/-- The `Status` struct: health bookkeeping of one endpoint. -/
structure Status where
  is_erroring : Bool
  last_error : Nat
  latency : ℚ
  latency_data : List ℚ
  deriving DecidableEq

/-- `Status::default()`. -/
def Status.default : Status :=
  { is_erroring := false, last_error := 0, latency := 0, latency_data := [] }

/-- The `Rpc` struct. The `client: Client` field is an opaque handle of the
external HTTP library and carries no state observable by this code, so it is
omitted; dispatches take the transport behaviour as a parameter instead. -/
structure Rpc where
  url : String
  status : Status
  max_consecutive : Nat
  consecutive : Nat
  deriving DecidableEq

/-- `Rpc::default()`. -/
def Rpc.default : Rpc :=
  { url := "", status := Status.default, max_consecutive := 0, consecutive := 0 }

/-- `Rpc::new(url, max_consecutive)`. -/
def Rpc.new (url : String) (max_consecutive : Nat) : Rpc :=
  { url := url, status := Status.default, max_consecutive := max_consecutive,
    consecutive := 0 }

/-- The outcome of one HTTP round trip as seen by `send_request`:
`sendErr msg` means `client.post(..).json(&tx).send()` returned `Err` whose
`to_string()` is `msg`; `bodyErr` means the send succeeded but
`response.text()` returned `Err`; `ok body` means the body was read as
`body`. -/
inductive SendOutcome where
  | sendErr (msg : String)
  | bodyErr
  | ok (body : Str)

/-- `Rpc::send_request` from `src/rpc/types.rs`: a send error is returned as
`Err(RpcError::InvalidResponse(err.to_string()))`; the body read is
`response.text().await.unwrap()`, so a body-read failure panics (`none`).
The method takes `&self`, embedded as state passing that returns the
(unchanged) receiver in the first component. -/
def Rpc.send_request (self : Rpc) (transport : Json → SendOutcome) (tx : Json) :
    Rpc × Option (Except RpcError Str) :=
  (self,
    match transport tx with
    | .sendErr err => some (.error (.InvalidResponse err))
    | .bodyErr => none
    | .ok body => some (.ok body))

/-- The `json!` request body built by `Rpc::block_number`. -/
def block_number_request : Json :=
  .obj [("method", .str "eth_blockNumber".data),
        ("params", .null),
        ("id", .num 1),
        ("jsonrpc", .str "2.0".data)]

/-- The `json!` request body built by `Rpc::get_finalized_block`. -/
def get_finalized_block_request : Json :=
  .obj [("method", .str "eth_getBlockByNumber".data),
        ("params", .arr [.str "finalized".data, .bool false]),
        ("id", .num 1),
        ("jsonrpc", .str "2.0".data)]

/-- `Rpc::block_number` from `src/rpc/types.rs`: dispatch the request
(the `?` operator propagates dispatch errors), extract the hex window with
`format_hex` (`?` again), then `hex_to_decimal(..).unwrap()` — a hex-parse
failure panics (`none`). -/
def Rpc.block_number (self : Rpc) (transport : Json → SendOutcome) :
    Rpc × Option (Except RpcError Nat) :=
  (self,
    match (self.send_request transport block_number_request).2 with
    | none => none
    | some (.error e) => some (.error e)
    | some (.ok number) =>
      match format_hex number with
      | .error e => some (.error e)
      | .ok s =>
        match hex_to_decimal s with
        | .error _ => none
        | .ok n => some (.ok n))

/-- `extract_number` from `src/rpc/types.rs`, applied to the outcome of the
external `serde_json::from_str(rx)` (`none` = the text is not valid JSON).
The parse result is unwrapped — invalid JSON panics (`none`). Then
`json["result"].as_str()`: a missing or non-string `result` returns
`Err(RpcError::InvalidResponse("error: Invalid response"))`; finally
`hex_to_decimal(number).unwrap()` panics on a hex-parse failure. -/
def extract_number (parsed : Option Json) : Option (Except RpcError Nat) :=
  match parsed with
  | none => none
  | some json =>
    match (json.index "result").as_str with
    | none => some (.error (.InvalidResponse "error: Invalid response"))
    | some number =>
      match hex_to_decimal number with
      | .error _ => none
      | .ok n => some (.ok n)

/-- `Rpc::get_finalized_block` from `src/rpc/types.rs`: dispatch the request
(`?` propagates dispatch errors) and run `extract_number` on the body; the
`parse` parameter stands for the external `serde_json::from_str`. -/
def Rpc.get_finalized_block (self : Rpc) (transport : Json → SendOutcome)
    (parse : Str → Option Json) : Rpc × Option (Except RpcError Nat) :=
  (self,
    match (self.send_request transport get_finalized_block_request).2 with
    | none => none
    | some (.error e) => some (.error e)
    | some (.ok body) => extract_number (parse body))

/-- `Rpc::update_latency` from `src/rpc/types.rs`: if
`latency_data.len() >= ma_length as usize`, `remove(0)` (which panics when
the vector is empty, modelled as `none`); then push `latest` and set
`latency` to the sum of the data divided by its length. -/
def Rpc.update_latency (self : Rpc) (latest : ℚ) (ma_length : ℚ) : Option Rpc :=
  match (if self.status.latency_data.length ≥ f64toUsize ma_length then
           vecRemoveFront self.status.latency_data
         else
           some self.status.latency_data) with
  | none => none
  | some data0 =>
    let data := data0 ++ [latest]
    some { self with status := { self.status with
      latency_data := data
      latency := data.sum / (data.length : ℚ) } }

/-- A sequence of `update_latency` calls with a fixed window, propagating a
panic. -/
def applyUpdates : Rpc → ℚ → List ℚ → Option Rpc
  | r, _, [] => some r
  | r, w, x :: xs =>
    match r.update_latency x w with
    | none => none
    | some r2 => applyUpdates r2 w xs

/-- The last `N` elements of a list, in order: what a FIFO window of
capacity `N` retains after pushing the whole list. -/
def lastN (N : ℕ) (l : List ℚ) : List ℚ := l.drop (l.length - N)

/-- The canonical 45-character response text used by the spec's examples. -/
def body_0x113f756 : Str :=
  "\x7b\"jsonrpc\":\"2.0\",\"id\":1,\"result\":\"0x113f756\"\x7d".data

/-- A 45-character response of the canonical shape whose result field is not
valid hexadecimal. -/
def body_bad_hex : Str :=
  "\x7b\"jsonrpc\":\"2.0\",\"id\":1,\"result\":\"0xzzzzzzz\"\x7d".data

/-- The big-endian positional value of a hexadecimal digit string: the
independent mathematical reading of base-16 notation. -/
def hexValue : Str → Nat
  | [] => 0
  | c :: cs => (hexDigitVal c).getD 0 * 16 ^ cs.length + hexValue cs

lemma f64toUsize_natCast (N : ℕ) : f64toUsize (N : ℚ) = N := by
  simp [f64toUsize]

lemma lastN_of_le {N : ℕ} {l : List ℚ} (h : l.length ≤ N) : lastN N l = l := by
  simp [lastN, Nat.sub_eq_zero_of_le h]

lemma update_latency_eq_of_lt (r : Rpc) (x w : ℚ)
    (h : ¬ (r.status.latency_data.length ≥ f64toUsize w)) :
    r.update_latency x w = some { r with status := { r.status with
      latency_data := r.status.latency_data ++ [x]
      latency := (r.status.latency_data ++ [x]).sum /
        ((r.status.latency_data ++ [x]).length : ℚ) } } := by
  unfold Rpc.update_latency
  rw [if_neg h]

lemma update_latency_eq_of_ge (r : Rpc) (x w : ℚ) (d : ℚ) (rest : List ℚ)
    (hdata : r.status.latency_data = d :: rest)
    (h : r.status.latency_data.length ≥ f64toUsize w) :
    r.update_latency x w = some { r with status := { r.status with
      latency_data := rest ++ [x]
      latency := (rest ++ [x]).sum / ((rest ++ [x]).length : ℚ) } } := by
  unfold Rpc.update_latency
  rw [hdata] at h
  rw [hdata, if_pos h]
  rfl

lemma update_latency_step (r : Rpc) (x : ℚ) (N : ℕ) (hN : 1 ≤ N) (acc : List ℚ)
    (hdata : r.status.latency_data = lastN N acc) :
    ∃ r2, r.update_latency x (N : ℚ) = some r2 ∧
      r2.status.latency_data = lastN N (acc ++ [x]) ∧
      r2.status.latency = r2.status.latency_data.sum /
        (r2.status.latency_data.length : ℚ) := by
  rcases Nat.lt_or_ge acc.length N with hlt | hge
  · have hacc : lastN N acc = acc := lastN_of_le hlt.le
    have hcond : ¬ (r.status.latency_data.length ≥ f64toUsize (N : ℚ)) := by
      rw [hdata, hacc, f64toUsize_natCast]
      omega
    refine ⟨_, update_latency_eq_of_lt r x (N : ℚ) hcond, ?_, rfl⟩
    simp only [hdata, hacc]
    rw [lastN_of_le (by simp only [List.length_append, List.length_singleton]; omega)]
  · have hlen : (lastN N acc).length = N := by
      simp only [lastN, List.length_drop]
      omega
    have hne : lastN N acc ≠ [] := by
      intro h0
      rw [h0] at hlen
      simp at hlen
      omega
    obtain ⟨d, rest, hcons⟩ := List.exists_cons_of_ne_nil hne
    have hcond : r.status.latency_data.length ≥ f64toUsize (N : ℚ) := by
      rw [hdata, f64toUsize_natCast, hlen]
    refine ⟨_, update_latency_eq_of_ge r x (N : ℚ) d rest (hdata.trans hcons) hcond, ?_, rfl⟩
    have hrest : rest = acc.drop (acc.length - N + 1) := by
      have htl := congrArg List.tail hcons
      simp only [List.tail_cons] at htl
      rw [← htl, lastN, List.tail_drop]
    rw [hrest, lastN, List.drop_append_eq_append_drop]
    have h1 : (acc ++ [x]).length - N = acc.length - N + 1 := by
      simp only [List.length_append, List.length_singleton]
      omega
    rw [h1]
    have h2 : acc.length - N + 1 - acc.length = 0 := by omega
    rw [h2]
    rfl

lemma applyUpdates_ok (N : ℕ) (hN : 1 ≤ N) (samples : List ℚ) :
    ∀ (r : Rpc) (acc : List ℚ), r.status.latency_data = lastN N acc →
      ∃ r2, applyUpdates r (N : ℚ) samples = some r2 ∧
        r2.status.latency_data = lastN N (acc ++ samples) ∧
        (samples = [] → r2 = r) ∧
        (samples ≠ [] →
          r2.status.latency = r2.status.latency_data.sum /
            (r2.status.latency_data.length : ℚ)) := by
  induction samples with
  | nil =>
    intro r acc hdata
    exact ⟨r, rfl, by simpa using hdata, fun _ => rfl, fun h => absurd rfl h⟩
  | cons x xs ih =>
    intro r acc hdata
    obtain ⟨r1, h1, h1data, h1lat⟩ := update_latency_step r x N hN acc hdata
    obtain ⟨r2, h2, h2data, h2nil, h2lat⟩ := ih r1 (acc ++ [x]) h1data
    refine ⟨r2, ?_, ?_, ?_, ?_⟩
    · show (match r.update_latency x (N : ℚ) with
        | none => none
        | some r3 => applyUpdates r3 (N : ℚ) xs) = some r2
      rw [h1]
      exact h2
    · rw [h2data]
      simp
    · intro h
      exact absurd h (by simp)
    · intro _
      rcases eq_or_ne xs [] with hxs | hxs
      · rw [h2nil hxs]
        exact h1lat
      · exact h2lat hxs

/-- Claim C1: for every sequence of samples pushed by `update_latency` with a
fixed window `N ≥ 1`, starting from the default (empty) state, after each
call (each prefix length `k`) the call succeeds, the latency history holds
exactly the last `N` samples pushed so far in order (so the history length is
at most `N` and the oldest sample is the one evicted at capacity, FIFO), and
the `latency` field equals the arithmetic mean (sum divided by length) of
the current history contents. -/
theorem update_latency_window_invariant (N : ℕ) (hN : 1 ≤ N) (samples : List ℚ) (k : ℕ) :
    ∃ r, applyUpdates Rpc.default (N : ℚ) (samples.take k) = some r ∧
      r.status.latency_data = lastN N (samples.take k) ∧
      r.status.latency_data.length ≤ N ∧
      (samples.take k ≠ [] →
        r.status.latency = r.status.latency_data.sum /
          (r.status.latency_data.length : ℚ)) := by
  obtain ⟨r, happ, hdata, _, hlat⟩ :=
    applyUpdates_ok N hN (samples.take k) Rpc.default []
      (by simp [Rpc.default, Status.default, lastN])
  rw [List.nil_append] at hdata
  refine ⟨r, happ, hdata, ?_, hlat⟩
  rw [hdata]
  simp only [lastN, List.length_drop]
  omega

/-- Witness for C1 at the spec's example: window 3, samples 10, 20, 30, 40;
the history becomes `[20, 30, 40]` and the latency 30. -/
theorem update_latency_window_invariant_witness :
    1 ≤ 3 ∧
    ∃ r, applyUpdates Rpc.default ((3 : ℕ) : ℚ) (([10, 20, 30, 40] : List ℚ).take 4) = some r ∧
      r.status.latency_data = lastN 3 (([10, 20, 30, 40] : List ℚ).take 4) ∧
      r.status.latency_data.length ≤ 3 ∧
      (([10, 20, 30, 40] : List ℚ).take 4 ≠ [] →
        r.status.latency = r.status.latency_data.sum /
          (r.status.latency_data.length : ℚ)) :=
  ⟨by decide, update_latency_window_invariant 3 (by decide) [10, 20, 30, 40] 4⟩

/-- Claim C9: for every window `N ≥ 1` and sample value `x`, from any state
whose history is within the window bound, `N` consecutive calls of
`update_latency x N` saturate the history with copies of `x` and drive the
`latency` field to exactly `x`. -/
theorem update_latency_saturation (N : ℕ) (hN : 1 ≤ N) (x : ℚ) (r : Rpc)
    (h : r.status.latency_data.length ≤ N) :
    ∃ r2, applyUpdates r (N : ℚ) (List.replicate N x) = some r2 ∧
      r2.status.latency_data = List.replicate N x ∧
      r2.status.latency = x := by
  obtain ⟨r2, happ, hdata, _, hlat⟩ :=
    applyUpdates_ok N hN (List.replicate N x) r r.status.latency_data
      (lastN_of_le h).symm
  have hrep : lastN N (r.status.latency_data ++ List.replicate N x)
      = List.replicate N x := by
    have hlen : (r.status.latency_data ++ List.replicate N x).length - N
        = r.status.latency_data.length := by
      simp
    rw [lastN, hlen, List.drop_left]
  rw [hrep] at hdata
  have hne : List.replicate N x ≠ [] := by
    simp only [ne_eq, List.replicate_eq_nil_iff]
    omega
  have hl := hlat hne
  rw [hdata] at hl
  refine ⟨r2, happ, hdata, ?_⟩
  rw [hl, List.sum_replicate, List.length_replicate, nsmul_eq_mul]
  exact mul_div_cancel_left₀ x (Nat.cast_ne_zero.mpr (by omega))

/-- Witness for C9: window 2, sample 5, starting from the default state. -/
theorem update_latency_saturation_witness :
    Rpc.default.status.latency_data.length ≤ 2 ∧
    ∃ r2, applyUpdates Rpc.default ((2 : ℕ) : ℚ) (List.replicate 2 5) = some r2 ∧
      r2.status.latency_data = List.replicate 2 5 ∧
      r2.status.latency = 5 :=
  ⟨by decide, update_latency_saturation 2 (by decide) 5 Rpc.default (by decide)⟩

/-- Claim C10: calling `update_latency` with a window argument whose `as
usize` truncation is 0 while the latency history is empty panics — the guard
`len >= 0` always holds, so `remove(0)` is executed on an empty vector; and
the operation is total whenever the truncated window is at least 1 or the
history is non-empty. -/
theorem update_latency_totality :
    (∀ (r : Rpc) (x w : ℚ), f64toUsize w = 0 → r.status.latency_data = [] →
      r.update_latency x w = none) ∧
    (∀ (r : Rpc) (x w : ℚ), (1 ≤ f64toUsize w ∨ r.status.latency_data ≠ []) →
      (r.update_latency x w).isSome = true) := by
  constructor
  · intro r x w hw hdata
    unfold Rpc.update_latency
    rw [hdata, hw]
    rfl
  · intro r x w h
    unfold Rpc.update_latency
    rcases hld : r.status.latency_data with _ | ⟨d, rest⟩
    · have hw : 1 ≤ f64toUsize w := by
        rcases h with h | h
        · exact h
        · exact absurd hld h
      rw [if_neg (by simp only [List.length_nil, ge_iff_le]; omega)]
      rfl
    · by_cases hc : (d :: rest).length ≥ f64toUsize w
      · rw [if_pos hc]
        rfl
      · rw [if_neg hc]
        rfl

/-- Witness for C10: a window of 0.0 on the default (empty) state panics; a
window of 1.0 on the same state succeeds. -/
theorem update_latency_totality_witness :
    Rpc.default.update_latency 1 0 = none ∧
    (Rpc.default.update_latency 1 1).isSome = true :=
  ⟨update_latency_totality.1 Rpc.default 1 0 (by decide) rfl,
   update_latency_totality.2 Rpc.default 1 1 (Or.inl (by decide))⟩

/-- Claim C4: for every response text, if its length is below 36 characters
the fixed-window path fails with `OutOfBounds`; otherwise it returns exactly
the substring from offset 34 (inclusive) to `length - 2` (exclusive) — the
returned slice is the part of the text obtained by cutting exactly 34
characters from the front and exactly 2 from the back. -/
theorem format_hex_spec (hex : Str) :
    (hex.length < 36 → format_hex hex = .error .OutOfBounds) ∧
    (36 ≤ hex.length → ∃ pre mid suf, format_hex hex = .ok mid ∧
      hex = pre ++ mid ++ suf ∧ pre.length = 34 ∧ suf.length = 2) := by
  constructor
  · intro h
    unfold format_hex
    rw [if_pos h]
  · intro h
    refine ⟨hex.take 34, (hex.drop 34).take (hex.length - 2 - 34), hex.drop (hex.length - 2),
      ?_, ?_, ?_, ?_⟩
    · unfold format_hex
      rw [if_neg (by omega)]
    · conv_lhs => rw [← List.take_append_drop 34 hex]
      rw [List.append_assoc]
      congr 1
      conv_lhs => rw [← List.take_append_drop (hex.length - 2 - 34) (hex.drop 34)]
      congr 1
      rw [List.drop_drop]
      congr 1
      omega
    · rw [List.length_take]
      omega
    · rw [List.length_drop]
      omega

/-- Witness for C4 at the canonical 45-character response. -/
theorem format_hex_spec_witness :
    36 ≤ body_0x113f756.length ∧
    ∃ pre mid suf, format_hex body_0x113f756 = .ok mid ∧
      body_0x113f756 = pre ++ mid ++ suf ∧ pre.length = 34 ∧ suf.length = 2 :=
  ⟨by decide, (format_hex_spec body_0x113f756).2 (by decide)⟩

lemma hexDigitVal_ne_quote {c : Char} (h : (hexDigitVal c).isSome = true) : c ≠ '\"' := by
  intro hc
  rw [hc] at h
  exact absurd h (by decide)

lemma hexDigitVal_ne_plus {c : Char} (h : (hexDigitVal c).isSome = true) : c ≠ '+' := by
  intro hc
  rw [hc] at h
  exact absurd h (by decide)

lemma filter_quote_eq {s : Str} (h : ∀ c ∈ s, (hexDigitVal c).isSome = true) :
    ('0' :: 'x' :: s).filter (fun c => c ≠ '\"') = '0' :: 'x' :: s := by
  rw [List.filter_eq_self]
  intro a ha
  simp only [decide_eq_true_eq]
  simp only [List.mem_cons] at ha
  rcases ha with rfl | rfl | ha
  · decide
  · decide
  · exact hexDigitVal_ne_quote (h a ha)

lemma from_str_radix_hexdigits {s : Str} (hne : s ≠ [])
    (h : ∀ c ∈ s, (hexDigitVal c).isSome = true) :
    from_str_radix_u64 s = parseDigitsU64 0 s := by
  cases s with
  | nil => exact absurd rfl hne
  | cons c rest =>
    have hplus : c ≠ '+' := hexDigitVal_ne_plus (h c (by simp))
    cases rest with
    | nil =>
      rw [show from_str_radix_u64 [c] =
        (if c = '+' then Except.error ParseIntError.InvalidDigit
         else parseDigitsU64 0 [c]) from rfl]
      rw [if_neg hplus]
    | cons b bs =>
      rw [show from_str_radix_u64 (c :: b :: bs) =
        (if c = '+' then parseDigitsU64 0 (b :: bs)
         else parseDigitsU64 0 (c :: b :: bs)) from rfl]
      rw [if_neg hplus]

lemma parseDigitsU64_ok : ∀ (s : Str) (acc : Nat),
    (∀ c ∈ s, (hexDigitVal c).isSome = true) →
    acc * 16 ^ s.length + hexValue s < 2 ^ 64 →
    parseDigitsU64 acc s = .ok (acc * 16 ^ s.length + hexValue s)
  | [], acc, _, _ => by simp [parseDigitsU64, hexValue]
  | c :: cs, acc, h, hbound => by
    obtain ⟨d, hd⟩ := Option.isSome_iff_exists.mp (h c (by simp))
    have hval : hexValue (c :: cs) = d * 16 ^ cs.length + hexValue cs := by
      simp [hexValue, hd]
    have hkey : (acc * 16 + d) * 16 ^ cs.length + hexValue cs
        = acc * 16 ^ (c :: cs).length + hexValue (c :: cs) := by
      rw [hval, List.length_cons, pow_succ]
      ring
    have hpow : 1 ≤ 16 ^ cs.length := Nat.one_le_pow _ _ (by norm_num)
    have hsmall : acc * 16 + d < 2 ^ 64 := by
      calc acc * 16 + d ≤ (acc * 16 + d) * 16 ^ cs.length :=
            Nat.le_mul_of_pos_right _ (by omega)
        _ ≤ (acc * 16 + d) * 16 ^ cs.length + hexValue cs := Nat.le_add_right _ _
        _ = acc * 16 ^ (c :: cs).length + hexValue (c :: cs) := hkey
        _ < 2 ^ 64 := hbound
    simp only [parseDigitsU64, hd]
    rw [if_pos (by omega : acc * 16 < 2 ^ 64), if_pos hsmall]
    rw [parseDigitsU64_ok cs (acc * 16 + d) (fun y hy => h y (by simp [hy]))
      (by rw [hkey]; exact hbound)]
    rw [hkey]

/-- Claim C5: `hex_to_decimal` strips every literal quote character, strips a
leading `0x` prefix, and parses the remainder as an unsigned 64-bit base-16
integer: `hex_to_decimal "0xff" = 255`, the stray-quote example
`hex_to_decimal "\u{22}0x10\u{22}" = 16`, `hex_to_decimal "zz"` fails with a
parse error (invalid digit), and on any non-empty `0x`-prefixed string of
hex digits whose value fits in 64 bits it returns the positional base-16
value of the digits. -/
theorem hex_to_decimal_spec :
    hex_to_decimal "0xff".data = .ok 255 ∧
    hex_to_decimal "\"0x10\"".data = .ok 16 ∧
    hex_to_decimal "zz".data = .error .InvalidDigit ∧
    ∀ s : Str, (∀ c ∈ s, (hexDigitVal c).isSome = true) → s ≠ [] →
      hexValue s < 2 ^ 64 →
      hex_to_decimal ('0' :: 'x' :: s) = .ok (hexValue s) := by
  refine ⟨by rfl, by rfl, by rfl, ?_⟩
  intro s h hne hbound
  show from_str_radix_u64 (if (('0' :: 'x' :: s).filter (fun c => c ≠ '\"')).take 2
    = ['0', 'x'] then (('0' :: 'x' :: s).filter (fun c => c ≠ '\"')).drop 2
    else ('0' :: 'x' :: s).filter (fun c => c ≠ '\"')) = .ok (hexValue s)
  rw [filter_quote_eq h]
  rw [show ('0' :: 'x' :: s).take 2 = ['0', 'x'] from rfl]
  rw [if_pos rfl]
  rw [show ('0' :: 'x' :: s).drop 2 = s from rfl]
  rw [from_str_radix_hexdigits hne h]
  rw [parseDigitsU64_ok s 0 h (by simpa using hbound)]
  simp

/-- Witness for C5 at the digit string `ff`. -/
theorem hex_to_decimal_spec_witness :
    (∀ c ∈ (['f', 'f'] : Str), (hexDigitVal c).isSome = true) ∧
    hex_to_decimal ('0' :: 'x' :: ['f', 'f']) = .ok (hexValue ['f', 'f']) ∧
    hexValue ['f', 'f'] = 255 :=
  ⟨by decide, hex_to_decimal_spec.2.2.2 ['f', 'f'] (by decide) (by decide) (by decide),
   by decide⟩

/-- Claim C6: when the transport returns exactly the 45-character canonical
text, `block_number` extracts the hex string `0x113f756` via the
fixed-window path and returns `Ok(18085718)`. -/
theorem block_number_canonical_response (r : Rpc) :
    body_0x113f756.length = 45 ∧
    format_hex body_0x113f756 = .ok "0x113f756".data ∧
    (r.block_number (fun _ => .ok body_0x113f756)).2 = some (.ok 18085718) :=
  ⟨by decide, by rfl, by rfl⟩

/-- Claim C2 is violated by the code: a decode failure does not always come
back as a typed error. A 45-character response whose result field is not
valid hexadecimal drives `block_number` into `hex_to_decimal(..).unwrap()`,
which panics (`none`); a response body that is not valid JSON drives
`get_finalized_block` into `serde_json::from_str(..).unwrap()`, which
panics; and a failed body read panics inside `send_request`. -/
theorem decode_failures_panic :
    body_bad_hex.length = 45 ∧
    (Rpc.default.block_number (fun _ => .ok body_bad_hex)).2 = none ∧
    (Rpc.default.get_finalized_block (fun _ => .ok "not json".data) (fun _ => none)).2
      = none ∧
    (Rpc.default.block_number (fun _ => .bodyErr)).2 = none :=
  ⟨by decide, by rfl, by rfl, by rfl⟩

/-- Counterexample to claim C3: on a concrete transport failure
(`connection refused`), `send_request` returns an error of kind
`InvalidResponse` — not `Transport` — and on a concrete body-read failure it
panics (`none`) instead of returning any error. -/
theorem send_request_transport_claim_false :
    (Rpc.default.send_request (fun _ => .sendErr "connection refused")
      block_number_request).2 = some (.error (.InvalidResponse "connection refused")) ∧
    RpcError.InvalidResponse "connection refused" ≠ RpcError.Transport ∧
    (Rpc.default.send_request (fun _ => .bodyErr) block_number_request).2 = none :=
  ⟨by rfl, by decide, by rfl⟩

/-- Claim C3 as amended: for every request, when the HTTP POST cannot be
sent or the connection fails, `send_request` returns a typed error of kind
`InvalidResponse` carrying the transport error's message; when the response
body cannot be read, `send_request` panics (`unwrap` on `text()`) rather
than returning an error. -/
theorem send_request_failure_behavior (r : Rpc) (transport : Json → SendOutcome)
    (tx : Json) (msg : String) :
    (transport tx = .sendErr msg →
      (r.send_request transport tx).2 = some (.error (.InvalidResponse msg))) ∧
    (transport tx = .bodyErr → (r.send_request transport tx).2 = none) := by
  constructor
  · intro h
    unfold Rpc.send_request
    rw [h]
  · intro h
    unfold Rpc.send_request
    rw [h]

/-- Witness for the amended C3 at a concrete failing transport. -/
theorem send_request_failure_behavior_witness :
    ((fun _ => SendOutcome.sendErr "connection refused") block_number_request
      = SendOutcome.sendErr "connection refused") ∧
    (Rpc.default.send_request (fun _ => SendOutcome.sendErr "connection refused")
      block_number_request).2 = some (.error (.InvalidResponse "connection refused")) :=
  ⟨rfl, (send_request_failure_behavior Rpc.default
    (fun _ => SendOutcome.sendErr "connection refused")
    block_number_request "connection refused").1 rfl⟩

/-- Claim C7 is half violated by the code: text that is not valid JSON makes
`extract_number` panic on `serde_json::from_str(..).unwrap()` (`none`)
instead of failing with `Malformed`; the other half holds — whenever the
parsed JSON has no string-shaped `result` field the function returns the
`InvalidResponse` error. -/
theorem extract_number_behavior :
    extract_number none = none ∧
    extract_number (some (.obj [])) =
      some (.error (.InvalidResponse "error: Invalid response")) ∧
    extract_number (some (.obj [("result", .num 5)])) =
      some (.error (.InvalidResponse "error: Invalid response")) ∧
    (∀ j : Json, (j.index "result").as_str = none →
      extract_number (some j) = some (.error (.InvalidResponse "error: Invalid response"))) := by
  refine ⟨by rfl, by rfl, by rfl, ?_⟩
  intro j h
  show (match (j.index "result").as_str with
    | none => some (Except.error (RpcError.InvalidResponse "error: Invalid response"))
    | some number =>
      match hex_to_decimal number with
      | Except.error _ => none
      | Except.ok n => some (Except.ok n)) =
    some (Except.error (RpcError.InvalidResponse "error: Invalid response"))
  rw [h]

/-- Witness for the universally quantified part of `extract_number_behavior`
at the empty JSON object. -/
theorem extract_number_behavior_witness :
    ((Json.obj []).index "result").as_str = none ∧
    extract_number (some (.obj [])) =
      some (.error (.InvalidResponse "error: Invalid response")) :=
  ⟨rfl, extract_number_behavior.2.2.2 (.obj []) rfl⟩

/-- Claim C8: no dispatch outcome of `send_request`, `block_number` or
`get_finalized_block` modifies `consecutive`, `max_consecutive`,
`status.is_erroring`, `status.last_error`, `status.latency` or
`status.latency_data` — the three methods take the receiver by shared
reference and return it unchanged. -/
theorem dispatch_preserves_counters (r : Rpc) (transport : Json → SendOutcome)
    (tx : Json) (parse : Str → Option Json) :
    ((r.send_request transport tx).1.consecutive = r.consecutive ∧
      (r.send_request transport tx).1.max_consecutive = r.max_consecutive ∧
      (r.send_request transport tx).1.status.is_erroring = r.status.is_erroring ∧
      (r.send_request transport tx).1.status.last_error = r.status.last_error ∧
      (r.send_request transport tx).1.status.latency = r.status.latency ∧
      (r.send_request transport tx).1.status.latency_data = r.status.latency_data) ∧
    ((r.block_number transport).1.consecutive = r.consecutive ∧
      (r.block_number transport).1.max_consecutive = r.max_consecutive ∧
      (r.block_number transport).1.status.is_erroring = r.status.is_erroring ∧
      (r.block_number transport).1.status.last_error = r.status.last_error ∧
      (r.block_number transport).1.status.latency = r.status.latency ∧
      (r.block_number transport).1.status.latency_data = r.status.latency_data) ∧
    ((r.get_finalized_block transport parse).1.consecutive = r.consecutive ∧
      (r.get_finalized_block transport parse).1.max_consecutive = r.max_consecutive ∧
      (r.get_finalized_block transport parse).1.status.is_erroring = r.status.is_erroring ∧
      (r.get_finalized_block transport parse).1.status.last_error = r.status.last_error ∧
      (r.get_finalized_block transport parse).1.status.latency = r.status.latency ∧
      (r.get_finalized_block transport parse).1.status.latency_data = r.status.latency_data) :=
  ⟨⟨rfl, rfl, rfl, rfl, rfl, rfl⟩, ⟨rfl, rfl, rfl, rfl, rfl, rfl⟩,
   ⟨rfl, rfl, rfl, rfl, rfl, rfl⟩⟩
